import Mathlib

/-!
Verification of the QA-Agents repository: a shallow embedding in Lean 4 of the
plan-compilation, placeholder-substitution, caching, orchestration and
vision-guided execution logic, together with theorems settling the frozen
claims about the system.

External effects (the OpenAI oracle, Playwright browser primitives, the file
system and wall-clock time) are modelled as explicit parameters: an oracle is
a function from call index to response, the page is a family of boolean
predicates on selectors, randomness and time are explicit inputs.  All other
definitions are direct translations of the TypeScript source.
-/

namespace QAAgents

/-! ### Character-list utilities

The TypeScript source works with JavaScript strings and regular expressions;
we model the specific regex operations it performs as scanners over `List
Char`, written with structural recursion so that every definition evaluates
by `decide` / `rfl`. -/

/-- Does `pat` occur as a contiguous substring of `s`?  (Case-sensitive.) -/
def containsChars (pat : List Char) : List Char → Bool
  | [] => pat.isEmpty
  | c :: cs => pat.isPrefixOf (c :: cs) || containsChars pat cs

/-- String wrapper for `containsChars`. -/
def containsStr (pat s : String) : Bool :=
  containsChars pat.data s.data

/-- Case-insensitive "is prefix of", comparing lowered characters (models a
regex with the `i` flag matching at the head of the list). -/
def ciStarts : List Char → List Char → Bool
  | [], _ => true
  | _ :: _, [] => false
  | p :: ps, c :: cs => (Char.toLower c == Char.toLower p) && ciStarts ps cs

/-- Case-insensitive substring test. -/
def containsCIChars (pat : List Char) : List Char → Bool
  | [] => pat.isEmpty
  | c :: cs => ciStarts pat (c :: cs) || containsCIChars pat cs

/-- String wrapper for `containsCIChars`. -/
def containsCIStr (pat s : String) : Bool :=
  containsCIChars pat.data s.data

/-- Worker for global (replace-all) substitution: `skip` counts characters of
a just-matched occurrence still to consume; at `skip = 0` we test for a match
at the head, exactly like `String.prototype.replace` with a `g` regex on a
literal pattern (leftmost match, continue after the matched text). -/
def rAux (pat rep : List Char) : Nat → List Char → List Char
  | _, [] => []
  | Nat.succ k, _ :: cs => rAux pat rep k cs
  | 0, c :: cs =>
    if pat.isPrefixOf (c :: cs) then rep ++ rAux pat rep (pat.length - 1) cs
    else c :: rAux pat rep 0 cs

/-- `value.replace(/pat/g, rep)` for a literal pattern `pat`. -/
def replaceAllStr (pat rep s : String) : String :=
  match pat.data with
  | [] => s
  | _ :: _ => String.mk (rAux pat.data rep.data 0 s.data)

/-- Case-insensitive worker for replace-all (a `gi` regex on a literal
pattern). -/
def rAuxCI (pat rep : List Char) : Nat → List Char → List Char
  | _, [] => []
  | Nat.succ k, _ :: cs => rAuxCI pat rep k cs
  | 0, c :: cs =>
    if ciStarts pat (c :: cs) then rep ++ rAuxCI pat rep (pat.length - 1) cs
    else c :: rAuxCI pat rep 0 cs

/-- `value.replace(/pat/gi, rep)` for a literal pattern `pat`. -/
def replaceAllCIStr (pat rep s : String) : String :=
  match pat.data with
  | [] => s
  | _ :: _ => String.mk (rAuxCI pat.data rep.data 0 s.data)

/-- JavaScript `String.prototype.trim`: strip leading and trailing
whitespace. -/
def jsTrim (s : String) : String :=
  String.mk (((s.data.dropWhile Char.isWhitespace).reverse.dropWhile
    Char.isWhitespace).reverse)

/-- Split a list at the first occurrence of character `c`: returns the part
strictly before and the part strictly after, or `none` when `c` is absent. -/
def splitAtFirst (c : Char) : List Char → Option (List Char × List Char)
  | [] => none
  | x :: xs =>
    if x = c then some ([], xs)
    else
      match splitAtFirst c xs with
      | some (l, r) => some (x :: l, r)
      | none => none

/-! ### Data model (src/agents/GherkinAgent.ts, src/agents/WebExecutorAgent.ts)

`Step.data` in the source is a loosely typed JavaScript value: `null`, a
string, an array of strings (from `extractData`), or a field map whose
entries are either strings or `{ selector, value }` objects. -/

/-- One entry of a data-table payload. -/
inductive DataField where
  | fieldStr (s : String)
  | fieldObj (selector : String) (value : String)
  deriving DecidableEq, Repr

/-- The `data` payload of a step. -/
inductive StepData where
  | noData
  | str (s : String)
  | arr (items : List String)
  | table (fields : List (String × DataField))
  deriving DecidableEq, Repr

/-- A step's `validation` descriptor. -/
structure Validation where
  vtype : String
  expected : String
  deriving DecidableEq, Repr

/-- A compiled plan step (interface `Step` of GherkinAgent).  `selector` is
`Option String` because the heuristic fallback can set it to `null`. -/
structure PlanStep where
  gherkinStep : String
  action : String
  selector : Option String
  data : StepData
  description : String
  validation : Option Validation
  deriving DecidableEq, Repr

/-- A compiled scenario. -/
structure Scenario where
  name : String
  context : String
  steps : List PlanStep
  deriving DecidableEq, Repr

/-- The execution plan produced by `parseAndPlan`. -/
structure ExecutionPlan where
  feature : String
  description : String
  scenarios : List Scenario
  type : String
  tags : List String
  language : String
  deriving DecidableEq, Repr

/-! ### Orchestrator (src/QAOrchestrator.ts)

`runScenario` walks the steps sequentially, appends each `StepResult`, and
breaks out of the loop at the first unsuccessful result, marking the
scenario `failed`; when the loop finishes with the scenario still `running`
it is marked `passed`.  The executor is modelled as a function from the step
index and step to a `StepResult`; we also record the trace of indices at
which the executor was invoked. -/

/-- Result of one executed step (interface `StepResult`). -/
structure StepResult where
  success : Bool
  step : String
  action : String
  error : Option String := none
  deriving DecidableEq, Repr

/-- Scenario status lattice of the orchestrator. -/
inductive ScenarioStatus where
  | passed
  | failed
  | errored
  | running
  deriving DecidableEq, Repr

/-- Result of one scenario run (interface `ScenarioResult`). -/
structure ScenarioResult where
  name : String
  context : String
  steps : List StepResult
  status : ScenarioStatus
  deriving DecidableEq, Repr

/-- The step loop of `QAOrchestrator.runScenario`: returns the accumulated
step results, whether every step succeeded, and the indices at which the
executor was invoked. -/
def runStepsFrom (exec : Nat → PlanStep → StepResult) :
    Nat → List PlanStep → List StepResult × Bool × List Nat
  | _, [] => ([], true, [])
  | i, s :: rest =>
    let r := exec i s
    if r.success then
      let t := runStepsFrom exec (i + 1) rest
      (r :: t.1, t.2.1, i :: t.2.2)
    else ([r], false, [i])

/-- `QAOrchestrator.runScenario` (no exception escapes the step loop). -/
def runScenario (sc : Scenario) (exec : Nat → PlanStep → StepResult) :
    ScenarioResult × List Nat :=
  let t := runStepsFrom exec 0 sc.steps
  ({ name := sc.name, context := sc.context, steps := t.1,
     status := if t.2.1 then ScenarioStatus.passed else ScenarioStatus.failed },
   t.2.2)

/-! #### Orchestrator lemmas -/

/-- Every step result before the last one in the loop's output is a success
(the loop breaks immediately after the first failure). -/
theorem runStepsFrom_dropLast_success (exec : Nat → PlanStep → StepResult) :
    ∀ (i : Nat) (l : List PlanStep),
      ∀ r ∈ (runStepsFrom exec i l).1.dropLast, r.success = true := by
  intro i l
  induction l generalizing i with
  | nil => intro r hr; simp [runStepsFrom] at hr
  | cons s rest ih =>
    intro r hr
    by_cases h : (exec i s).success
    · simp only [runStepsFrom, h, if_pos] at hr
      rcases rest with _ | ⟨s2, rest2⟩
      · simp [runStepsFrom] at hr
      · rw [List.dropLast_cons_of_ne_nil] at hr
        · rcases List.mem_cons.mp hr with h1 | h2
          · rw [h1]; exact h
          · exact ih (i + 1) r h2
        · cases hsucc : (exec (i + 1) s2).success <;>
            simp [runStepsFrom, hsucc]
    · simp only [runStepsFrom, h] at hr
      simp at hr

/-- The loop's success flag is `false` exactly when the last recorded result
failed; in that case the failure ends the list. -/
theorem runStepsFrom_failCount (exec : Nat → PlanStep → StepResult) :
    ∀ (i : Nat) (l : List PlanStep),
      (runStepsFrom exec i l).1.countP (fun r => !r.success) ≤ 1 := by
  intro i l
  induction l generalizing i with
  | nil => simp [runStepsFrom]
  | cons s rest ih =>
    by_cases h : (exec i s).success
    · simp only [runStepsFrom, h, if_pos]
      rw [List.countP_cons]
      simpa [h] using ih (i + 1)
    · simp [runStepsFrom, h, List.countP_cons]

/-! ### GherkinAgent: dynamic placeholders (src/agents/GherkinAgent.ts)

`generateRandomEmail` builds `user_${randomStr}_${timestamp}@${domain}` from
`Math.random().toString(36).substring(2, 8)`, `Date.now()` and a random pick
from a fixed domain list; we take the random string, the decimal rendering
of the timestamp, and the domain index as explicit inputs.
`replacePlaceholder` tests the patterns `<email>`, `<random_email>`,
`{{email}}` (case-insensitively) in order and replaces all occurrences of
the first matching one with a single freshly generated address; we thread
the sequence of generated addresses as `gen : Nat → String` with a call
counter. -/

/-- The fixed domain list of `generateRandomEmail`. -/
def emailDomains : List String :=
  ["test.com", "example.com", "random.test", "qa.test"]

/-- Domain picked by index. -/
def domainOf (d : Fin 4) : String :=
  emailDomains.get (Fin.cast (by rfl) d)

/-- `generateRandomEmail`, with its random and clock inputs explicit. -/
def generateRandomEmail (randomStr timestampStr : String) (d : Fin 4) : String :=
  "user_" ++ randomStr ++ "_" ++ timestampStr ++ "@" ++ domainOf d

/-- The `emailPatterns` array of `replacePlaceholder` (the third entry is
the literal `{{email}}`). -/
def emailPatterns : List String :=
  ["<email>", "<random_email>", "\x7b\x7bemail\x7d\x7d"]

/-- `replacePlaceholder`: replace all occurrences of the first matching
email pattern with the next generated address, advancing the call counter;
a value with no email marker is returned unchanged. -/
def replacePlaceholder (gen : Nat → String) (n : Nat) (value : String) :
    String × Nat :=
  match emailPatterns.find? (fun pat => containsCIStr pat value) with
  | some pat => (replaceAllCIStr pat (gen n) value, n + 1)
  | none => (value, n)

/-- Placeholder processing of one data-table entry: `{ selector, value }`
objects with a non-empty value get their value substituted, plain string
entries are substituted directly. -/
def processField (gen : Nat → String) (n : Nat) : DataField → DataField × Nat
  | DataField.fieldStr s =>
    let r := replacePlaceholder gen n s
    (DataField.fieldStr r.1, r.2)
  | DataField.fieldObj sel v =>
    if v ≠ "" then
      let r := replacePlaceholder gen n v
      (DataField.fieldObj sel r.1, r.2)
    else (DataField.fieldObj sel v, n)

/-- Placeholder processing of a field map, in key order. -/
def processFields (gen : Nat → String) :
    Nat → List (String × DataField) → List (String × DataField) × Nat
  | n, [] => ([], n)
  | n, (k, f) :: rest =>
    let r := processField gen n f
    let t := processFields gen r.2 rest
    ((k, r.1) :: t.1, t.2)

/-- Placeholder processing of an array payload (a JavaScript array is an
object whose keys are the indices, so its string elements are processed). -/
def processItems (gen : Nat → String) :
    Nat → List String → List String × Nat
  | n, [] => ([], n)
  | n, s :: rest =>
    let r := replacePlaceholder gen n s
    let t := processItems gen r.2 rest
    (r.1 :: t.1, t.2)

/-- Placeholder processing of one step's `data` payload. -/
def processData (gen : Nat → String) (n : Nat) : StepData → StepData × Nat
  | StepData.noData => (StepData.noData, n)
  | StepData.str s =>
    let r := replacePlaceholder gen n s
    (StepData.str r.1, r.2)
  | StepData.arr items =>
    let r := processItems gen n items
    (StepData.arr r.1, r.2)
  | StepData.table fields =>
    let r := processFields gen n fields
    (StepData.table r.1, r.2)

/-- Placeholder processing of the steps of a scenario. -/
def processSteps (gen : Nat → String) :
    Nat → List PlanStep → List PlanStep × Nat
  | n, [] => ([], n)
  | n, s :: rest =>
    let r := processData gen n s.data
    let t := processSteps gen r.2 rest
    ({ s with data := r.1 } :: t.1, t.2)

/-- Placeholder processing of a scenario list. -/
def processScenarios (gen : Nat → String) :
    Nat → List Scenario → List Scenario × Nat
  | n, [] => ([], n)
  | n, sc :: rest =>
    let r := processSteps gen n sc.steps
    let t := processScenarios gen r.2 rest
    ({ sc with steps := r.1 } :: t.1, t.2)

/-- `processDynamicPlaceholders` over a whole plan. -/
def processDynamicPlaceholders (gen : Nat → String) (n : Nat)
    (plan : ExecutionPlan) : ExecutionPlan × Nat :=
  let r := processScenarios gen n plan.scenarios
  ({ plan with scenarios := r.1 }, r.2)

/-! ### GherkinAgent: plan cache (`getCachedPlan`, `saveToCache`)

The cache file holds `{ featureFile, contentHash, timestamp, plan }`; a
read failure or a missing file is modelled as `none`. -/

/-- The parsed contents of a `.cache.json` file. -/
structure CacheData where
  contentHash : String
  timestamp : Int
  plan : ExecutionPlan
  deriving DecidableEq, Repr

/-- The 7-day horizon (`7 * 24 * 60 * 60 * 1000` milliseconds). -/
def maxCacheAge : Int := 7 * 24 * 60 * 60 * 1000

/-- `getCachedPlan`: miss on absent or unreadable file, on a content-hash
mismatch, and on a cache age strictly above the 7-day horizon. -/
def getCachedPlan (cacheFile : Option CacheData) (currentHash : String)
    (now : Int) : Option ExecutionPlan :=
  match cacheFile with
  | none => none
  | some c =>
    if c.contentHash ≠ currentHash then none
    else if now - c.timestamp > maxCacheAge then none
    else some c.plan

/-! ### GherkinAgent: oracle interpretation and the compiled plan

`interpretWithAI` returns the parsed oracle response verbatim, or the
heuristic `basicInterpretation` when the call or the JSON parse fails.
`parseAndPlan` builds the `ExecutionPlan` directly from the interpretation's
`scenarios` and `testType` — no field of any step is validated or rewritten
on the way. -/

/-- The parsed JSON body of a reasoning-oracle response. -/
structure OracleResponse where
  testType : String
  scenarios : List Scenario
  deriving DecidableEq, Repr

/-- The plan constructed by `parseAndPlan` from an interpretation (lines
113–122 of GherkinAgent.ts): scenarios and type are taken verbatim. -/
def planFromInterpretation (featureName featureDesc : String)
    (tags : List String) (lang : String) (resp : OracleResponse) :
    ExecutionPlan :=
  { feature := featureName, description := featureDesc,
    scenarios := resp.scenarios, type := resp.testType,
    tags := tags, language := lang }

/-- `parseAndPlan` after the Gherkin parse, with the cache-lookup outcome
and the freshly interpreted plan explicit.  Returns the plan handed to the
caller and the artifact written to the cache (`none` on a cache hit).  On a
hit the cached plan is substituted and returned; on a miss the fresh plan is
saved first and substituted afterwards, so the cached artifact is always the
pre-substitution template. -/
def parseAndPlanModel (gen : Nat → String) (n : Nat)
    (cached : Option ExecutionPlan) (fresh : ExecutionPlan) :
    ExecutionPlan × Option ExecutionPlan :=
  match cached with
  | some p => ((processDynamicPlaceholders gen n p).1, none)
  | none => ((processDynamicPlaceholders gen n fresh).1, some fresh)

/-! ### GherkinAgent: heuristic fallback (`basicInterpretation`)

`guessAction` maps Gherkin keywords and keyword substrings of the lowered
step text to action kinds; `guessSelector` pulls the first quoted substring
or URL/path; `extractData` collects all quoted substrings (with quote
characters stripped) or, failing that, the first URL/path.  All three are
total: the fallback can never throw. -/

/-- `guessAction(keyword, text)`. -/
def guessAction (keyword text : String) : String :=
  let lowerText := text.toLower
  if jsTrim keyword = "Given" then
    if containsStr "navig" lowerText || containsStr "visit" lowerText ||
        containsStr "open" lowerText then "navigate"
    else "setup"
  else if jsTrim keyword = "When" then
    if containsStr "click" lowerText || containsStr "press" lowerText then
      "click"
    else if containsStr "type" lowerText || containsStr "enter" lowerText ||
        containsStr "fill" lowerText then "type"
    else if containsStr "select" lowerText then "select"
    else "action"
  else if jsTrim keyword = "Then" then "validate"
  else "action"

/-- First occurrence of `q`-quoted text with at least one non-`q` character
between the quotes (the regex `q([^q]+)q`), returning the capture group. -/
def firstQuotedWith (q : Char) : List Char → Option (List Char)
  | [] => none
  | c :: cs =>
    if c = q then
      let run := cs.takeWhile (fun x => x ≠ q)
      let rest := cs.drop run.length
      if run.isEmpty = false ∧ rest.isEmpty = false then some run
      else firstQuotedWith q cs
    else firstQuotedWith q cs

/-- Leftmost match of `(https?:\/\/[^\s]+|\/[^\s]+)` (the URL pattern of
`guessSelector`). -/
def urlMatchSel : List Char → Option (List Char)
  | [] => none
  | c :: cs =>
    if "https://".data.isPrefixOf (c :: cs) then
      let run := ((c :: cs).drop 8).takeWhile (fun x => !x.isWhitespace)
      if run.isEmpty = false then some ((c :: cs).take 8 ++ run)
      else urlMatchSel cs
    else if "http://".data.isPrefixOf (c :: cs) then
      let run := ((c :: cs).drop 7).takeWhile (fun x => !x.isWhitespace)
      if run.isEmpty = false then some ((c :: cs).take 7 ++ run)
      else urlMatchSel cs
    else if c = '/' then
      let run := cs.takeWhile (fun x => !x.isWhitespace)
      if run.isEmpty = false then some (c :: run)
      else urlMatchSel cs
    else urlMatchSel cs

/-- `guessSelector(text)`: first double-quoted substring, else first
single-quoted substring, else first URL or path. -/
def guessSelector (text : String) : Option String :=
  match firstQuotedWith '"' text.data with
  | some l => some (String.mk l)
  | none =>
    match firstQuotedWith '\x27' text.data with
    | some l => some (String.mk l)
    | none =>
      match urlMatchSel text.data with
      | some l => some (String.mk l)
      | none => none

/-- All matches of the global regex `"([^"]+)"|'([^']+)'` (full matches,
quotes included), scanning left to right and continuing after each match;
`skip` counts characters of a just-emitted match still to consume. -/
def qaAux : Nat → List Char → List (List Char)
  | _, [] => []
  | Nat.succ k, _ :: cs => qaAux k cs
  | 0, c :: cs =>
    if c = '"' then
      let run := cs.takeWhile (fun x => x ≠ '"')
      let rest := cs.drop run.length
      if run.isEmpty = false ∧ rest.isEmpty = false then
        (('"' :: run) ++ ['"']) :: qaAux (run.length + 1) cs
      else qaAux 0 cs
    else if c = '\x27' then
      let run := cs.takeWhile (fun x => x ≠ '\x27')
      let rest := cs.drop run.length
      if run.isEmpty = false ∧ rest.isEmpty = false then
        (('\x27' :: run) ++ ['\x27']) :: qaAux (run.length + 1) cs
      else qaAux 0 cs
    else qaAux 0 cs

/-- `m.replace(/['"]/g, '')`: strip every quote character. -/
def stripQuotes (l : List Char) : List Char :=
  l.filter (fun c => c ≠ '"' ∧ c ≠ '\x27')

/-- Leftmost match of `(https?:\/\/[^\s]+|\/[a-zA-Z0-9\/_-]+)` (the URL
pattern of `extractData`, whose path branch uses a narrower character
class than `guessSelector`). -/
def urlMatchData : List Char → Option (List Char)
  | [] => none
  | c :: cs =>
    if "https://".data.isPrefixOf (c :: cs) then
      let run := ((c :: cs).drop 8).takeWhile (fun x => !x.isWhitespace)
      if run.isEmpty = false then some ((c :: cs).take 8 ++ run)
      else urlMatchData cs
    else if "http://".data.isPrefixOf (c :: cs) then
      let run := ((c :: cs).drop 7).takeWhile (fun x => !x.isWhitespace)
      if run.isEmpty = false then some ((c :: cs).take 7 ++ run)
      else urlMatchData cs
    else if c = '/' then
      let run := cs.takeWhile
        (fun x => x.isAlphanum || x = '/' || x = '_' || x = '-')
      if run.isEmpty = false then some (c :: run)
      else urlMatchData cs
    else urlMatchData cs

/-- `extractData(text)`: all quoted substrings with quote characters
stripped, else the first URL or path, else `null`. -/
def extractData (text : String) : StepData :=
  let ms := qaAux 0 text.data
  if ms.isEmpty = false then
    StepData.arr (ms.map (fun m => String.mk (stripQuotes m)))
  else
    match urlMatchData text.data with
    | some u => StepData.str (String.mk u)
    | none => StepData.noData

/-! ### GherkinAgent: Gherkin AST and scenario-outline expansion

The `@cucumber/gherkin` AST, restricted to the fields
`buildInterpretationPrompt` and `basicInterpretation` read. -/

/-- A raw Gherkin step. -/
structure GStep where
  keyword : String
  text : String
  deriving DecidableEq, Repr

/-- An examples table (header may be absent in the AST). -/
structure GExamples where
  tableHeader : Option (List String)
  tableBody : List (List String)
  deriving DecidableEq, Repr

/-- A raw Gherkin scenario. -/
structure GScenario where
  name : String
  steps : List GStep
  examples : List GExamples
  deriving DecidableEq, Repr

/-- A raw Gherkin feature (its scenario children). -/
structure GFeature where
  name : String
  scenarios : List GScenario
  deriving DecidableEq, Repr

/-- A scenario as placed into the interpretation prompt. -/
structure PromptScenario where
  name : String
  steps : List GStep
  deriving DecidableEq, Repr

/-- Sequential substitution of `<param>` placeholders: for each
header/value pair in order, replace every occurrence of `<param>` by the
row's value (`expandedText.replace(new RegExp(`<param>`, 'g'), value)`). -/
def substParams (pairs : List (String × String)) (text : String) : String :=
  pairs.foldl (fun acc pv => replaceAllStr ("<" ++ pv.1 ++ ">") pv.2 acc) text

/-- Expansion of one examples table of a scenario outline: each data row
yields one scenario named `"<name> (Example i)"` (1-based row index) whose
step texts have every header parameter substituted; a table without a
header contributes nothing. -/
def expandTable (sc : GScenario) (tbl : GExamples) : List PromptScenario :=
  match tbl.tableHeader with
  | none => []
  | some headers =>
    tbl.tableBody.enum.map (fun ir =>
      { name := sc.name ++ " (Example " ++ toString (ir.1 + 1) ++ ")",
        steps := sc.steps.map (fun st =>
          { keyword := jsTrim st.keyword,
            text := substParams (headers.zip ir.2) st.text }) })

/-- Scenario-level expansion of `buildInterpretationPrompt`: a scenario
with examples expands table by table; a scenario without examples passes
through unchanged (keywords trimmed). -/
def expandScenario (sc : GScenario) : List PromptScenario :=
  if sc.examples.isEmpty then
    [{ name := sc.name,
       steps := sc.steps.map (fun st =>
         { keyword := jsTrim st.keyword, text := st.text }) }]
  else (sc.examples.map (expandTable sc)).flatten

/-- The scenario list embedded into the interpretation prompt. -/
def buildPromptScenarios (f : GFeature) : List PromptScenario :=
  (f.scenarios.map expandScenario).flatten

/-- `basicInterpretation(feature)`: the deterministic no-oracle fallback.
Note that it maps each scenario's raw steps directly and ignores any
examples tables. -/
def basicInterpretation (f : GFeature) : OracleResponse :=
  { testType := "web",
    scenarios := f.scenarios.map (fun sc =>
      { name := sc.name, context := "web",
        steps := sc.steps.map (fun st =>
          { gherkinStep := st.keyword ++ st.text,
            action := guessAction st.keyword st.text,
            selector := guessSelector st.text,
            data := extractData st.text,
            description := st.text,
            validation := none }) }) }

/-- `interpretWithAI`, with the oracle call's outcome explicit: the parsed
response is returned verbatim; a network or JSON-parse failure falls back
to `basicInterpretation(feature)` — the fallback path is total. -/
def interpretWithAI (oracle : Except String OracleResponse) (f : GFeature) :
    OracleResponse :=
  match oracle with
  | Except.ok r => r
  | Except.error _ => basicInterpretation f

/-! ### WebExecutorAgent: vision-response JSON handling
(src/agents/WebExecutorAgent.ts, `executeActionWithVision`)

The response content is matched first against the markdown fence regex
    /```json\n([\s\S]*?)\n```/
(capture group 1, lazy closing fence), then against /\{[\s\S]*\}/ (first
opening brace to last closing brace); if neither matches, the raw content is
parsed.  `JSON.parse` and the network call are external: the parse is a
parameter `parse : String → Option VisionResult`, the oracle a function
from call index to outcome.  The code performs exactly one oracle call and
throws on a parse failure — there is no retry. -/

/-- The opening fence of the markdown-JSON regex. -/
def fencedOpen : List Char := "```json\n".data

/-- The closing fence of the markdown-JSON regex. -/
def fencedClose : List Char := "\n```".data

/-- Characters strictly before the first occurrence of `pat` (callers
guarantee `pat` occurs). -/
def takeUntilSub (pat : List Char) : List Char → List Char
  | [] => []
  | c :: cs =>
    if pat.isPrefixOf (c :: cs) then []
    else c :: takeUntilSub pat cs

/-- Leftmost match of the fence regex: the first position where the opening
fence matches and a closing fence follows; the capture is everything up to
the earliest closing fence. -/
def findFenced : List Char → Option (List Char)
  | [] => none
  | c :: cs =>
    if fencedOpen.isPrefixOf (c :: cs) &&
        containsChars fencedClose ((c :: cs).drop fencedOpen.length) then
      some (takeUntilSub fencedClose ((c :: cs).drop fencedOpen.length))
    else findFenced cs

/-- Prefix of `l` up to and including the last occurrence of `c` (callers
guarantee `c` occurs). -/
def takeThroughLast (c : Char) : List Char → List Char
  | [] => []
  | x :: xs =>
    if xs.contains c then x :: takeThroughLast c xs
    else if x = c then [x]
    else []

/-- Leftmost match of /\x7b[\s\S]*\x7d/: from the first opening brace that
has a closing brace after it, greedily through the last closing brace. -/
def braceSlice : List Char → Option (List Char)
  | [] => none
  | c :: cs =>
    if c = '\x7b' && cs.contains '\x7d' then
      some (c :: takeThroughLast '\x7d' cs)
    else braceSlice cs

/-- The string handed to `JSON.parse`: fenced capture, else brace slice,
else the raw content. -/
def extractJsonStr (content : String) : String :=
  match findFenced content.data with
  | some inner => String.mk inner
  | none =>
    match braceSlice content.data with
    | some sl => String.mk sl
    | none => content

/-- A parsed Vision-oracle response (interface `VisionResult`; every field
is optional in the source, so absent fields are defaults).  `fields` lists
(label, selector, value) triples. -/
structure VisionResult where
  strategy : String := ""
  selector : String := ""
  dropdownSelector : String := ""
  actualText : String := ""
  reasoning : String := ""
  confidence : String := ""
  fields : List (String × String × String) := []
  found : Bool := false
  deriving DecidableEq, Repr

/-- `executeActionWithVision`'s response handling: one oracle call; on
success the content is unwrapped with `extractJsonStr` and parsed; a parse
failure raises `Vision AI returned invalid JSON` at once.  Returns the
outcome together with the number of oracle calls performed. -/
def visionResolve (oracle : Nat → Except String String)
    (parse : String → Option VisionResult) :
    Except String VisionResult × Nat :=
  match oracle 0 with
  | Except.error e => (Except.error e, 1)
  | Except.ok content =>
    match parse (extractJsonStr content) with
    | some v => (Except.ok v, 1)
    | none => (Except.error "Vision AI returned invalid JSON", 1)

/-! ### WebExecutorAgent: the vision-guided click (`click`)

The live page is a family of boolean predicates over selector strings:
whether a `waitFor(attached)` succeeds, whether `locator(...).all()` is
non-empty, whether `waitFor(visible)` succeeds, whether the interactive
click succeeds, and whether the DOM-level `el.click()` succeeds. -/

/-- The page environment seen by the click state machine. -/
structure PageEnv where
  attachable : String → Bool
  anyMatches : String → Bool
  visible : String → Bool
  clickOk : String → Bool
  jsClickOk : String → Bool

/-- First quoted argument of a selector: the regex /['"]([^'"]+)['"]/,
where the character class excludes both quote kinds. -/
def extractQuotedArg : List Char → Option (List Char)
  | [] => none
  | c :: cs =>
    if c = '"' || c = '\x27' then
      let run := cs.takeWhile (fun x => x ≠ '"' ∧ x ≠ '\x27')
      let rest := cs.drop run.length
      if run.isEmpty = false ∧ rest.isEmpty = false then some run
      else extractQuotedArg cs
    else extractQuotedArg cs

/-- `s.replace('text=', '')`: drop the first occurrence of `pat`. -/
def removeFirstSub (pat : List Char) : List Char → List Char
  | [] => []
  | c :: cs =>
    if pat.isPrefixOf (c :: cs) then (c :: cs).drop pat.length
    else c :: removeFirstSub pat cs

/-- The Locate phase of `click`: the vision selector, then (for text-based
selectors) the three text alternatives, then the generic catch-alls.
Returns the selector finally used, or `none` when everything failed. -/
def clickLocate (env : PageEnv) (sel : String) : Option String :=
  if env.attachable sel then some sel
  else
    let textBased := containsStr ":has-text" sel || sel.startsWith "text="
    let fromText :=
      if textBased then
        let t := String.mk
          ((extractQuotedArg sel.data).getD (removeFirstSub "text=".data sel.data))
        [ "button:has-text(\x27" ++ t ++ "\x27)",
          "[role=\x27button\x27]:has-text(\x27" ++ t ++ "\x27)",
          "a:has-text(\x27" ++ t ++ "\x27)" ].find? env.attachable
      else none
    match fromText with
    | some a => some a
    | none =>
      [ "button:visible", "[role=\"button\"]:visible",
        "a.button:visible" ].find?
        (fun g => env.anyMatches g && env.visible g)

/-- The Act phase of `click`: the interactive click (visibility wait,
scroll, `element.click()`), then on any failure the DOM-level
`el.click()` bypass; both failing raises. -/
def clickAct (env : PageEnv) (e : String) : Except String String :=
  if env.visible e && env.clickOk e then Except.ok e
  else if env.jsClickOk e then Except.ok e
  else Except.error "Could not click element"

/-- The vision-mode `click` on a resolved `VisionResult`: Locate then Act;
an exhausted Locate raises naming the vision selector. -/
def clickWithVision (env : PageEnv) (v : VisionResult) :
    Except String String :=
  match clickLocate env v.selector with
  | none =>
    Except.error
      ("Could not find clickable element. Vision suggested: " ++ v.selector)
  | some e => clickAct env e

/-- The `success` flag of the `StepResult` that `executeStep` builds from a
vision click (an exception becomes `success = false`). -/
def clickStepSuccess (env : PageEnv) (v : VisionResult) : Bool :=
  match clickWithVision env v with
  | Except.ok _ => true
  | Except.error _ => false

/-! ### WebExecutorAgent: `validate` with an `exists` expectation

The retry loop runs while `!found && retryCount < 5`; each iteration
evaluates the two selector strategies (`text="..."` and `*:has-text(...)`)
against the current DOM, and on failure waits 1000 ms and increments the
retry count.  Only when the loop ends without success (and vision is
enabled) is the Vision oracle consulted with `actionKind = validate`.  The
DOM outcome of attempt `k` under the two strategies is `s1 k` / `s2 k`. -/

/-- Outcome of a `validate`/`exists` run. -/
structure ValidateOutcome where
  found : Bool
  attempts : Nat
  waitsMs : List Nat
  visionConsulted : Bool
  error : Option String
  deriving DecidableEq, Repr

/-- The retry loop (`fuel` = remaining allowed retries, so the loop is
entered with `fuel = 5`): returns whether the text was found, the final
retry count, and the list of in-loop waits. -/
def retryLoop (s1 s2 : Nat → Bool) : Nat → Nat → Bool × Nat × List Nat
  | k, 0 => (false, k, [])
  | k, fuel + 1 =>
    if s1 k || s2 k then (true, k, [])
    else
      let r := retryLoop s1 s2 (k + 1) fuel
      (r.1, r.2.1, 1000 :: r.2.2)

/-- `validate` for an `exists` expectation: DOM retry loop first, Vision
oracle (when enabled) only afterwards; failure raises an error naming the
expected text. -/
def validateExists (searchText : String) (s1 s2 : Nat → Bool)
    (useVision visionFound : Bool) : ValidateOutcome :=
  let r := retryLoop s1 s2 0 5
  let domFound := r.1
  let consult := !domFound && useVision
  let found := domFound || (consult && visionFound)
  { found := found, attempts := r.2.1, waitsMs := r.2.2,
    visionConsulted := consult,
    error :=
      if found then none
      else some ("Expected text \"" ++ searchText ++ "\" not found on page") }

/-! ## Claim theorems -/

/-! ### C1, C10: orchestrator fail-fast -/

/-- Claim C1: for every scenario executed by the orchestrator, steps run
strictly in order and execution stops at the first unsuccessful step: for a
3-step scenario whose second step fails, the executor is invoked exactly at
indices 0 and 1 (never for the third step), the `ScenarioResult` holds
exactly the two corresponding `StepResult`s, and the scenario status is
`failed`. -/
theorem C1_fail_fast (sc : Scenario) (exec : Nat → PlanStep → StepResult)
    (s1 s2 s3 : PlanStep) (hsteps : sc.steps = [s1, s2, s3])
    (h1 : (exec 0 s1).success = true) (h2 : (exec 1 s2).success = false) :
    (runScenario sc exec).1.steps = [exec 0 s1, exec 1 s2] ∧
    (runScenario sc exec).1.steps.length = 2 ∧
    (runScenario sc exec).1.status = ScenarioStatus.failed ∧
    (runScenario sc exec).2 = [0, 1] := by
  simp [runScenario, hsteps, runStepsFrom, h1, h2]

/-- A demo plan step for concrete orchestrator runs. -/
def demoStep (d : String) : PlanStep :=
  { gherkinStep := d, action := "click", selector := some "",
    data := StepData.noData, description := d, validation := none }

/-- A 3-step demo scenario. -/
def demoScenario : Scenario :=
  { name := "Login", context := "web",
    steps := [demoStep "s1", demoStep "s2", demoStep "s3"] }

/-- A demo executor that fails exactly on the second step (index 1). -/
def demoExec : Nat → PlanStep → StepResult :=
  fun i st => { success := !(i == 1), step := st.description,
                action := st.action }

/-- Witness for C1 at a concrete 3-step scenario whose second step fails. -/
theorem C1_fail_fast_witness :
    demoScenario.steps = [demoStep "s1", demoStep "s2", demoStep "s3"] ∧
    (demoExec 0 (demoStep "s1")).success = true ∧
    (demoExec 1 (demoStep "s2")).success = false ∧
    ((runScenario demoScenario demoExec).1.steps =
        [demoExec 0 (demoStep "s1"), demoExec 1 (demoStep "s2")] ∧
      (runScenario demoScenario demoExec).1.steps.length = 2 ∧
      (runScenario demoScenario demoExec).1.status = ScenarioStatus.failed ∧
      (runScenario demoScenario demoExec).2 = [0, 1]) :=
  ⟨rfl, by decide, by decide,
   C1_fail_fast demoScenario demoExec _ _ _ rfl (by decide) (by decide)⟩

/-- Claim C10: every `ScenarioResult` produced by `runScenario` (no
exception escaping the loop) contains at most one failed `StepResult`, and
every step result other than the last is a success — so a failure, when
present, is the final entry. -/
theorem C10_at_most_one_failure (sc : Scenario)
    (exec : Nat → PlanStep → StepResult) :
    (∀ r ∈ (runScenario sc exec).1.steps.dropLast, r.success = true) ∧
    (runScenario sc exec).1.steps.countP (fun r => !r.success) ≤ 1 := by
  refine ⟨?_, ?_⟩
  · exact runStepsFrom_dropLast_success exec 0 sc.steps
  · exact runStepsFrom_failCount exec 0 sc.steps

/-! ### C7: cache hit condition -/

/-- A minimal concrete plan for cache demonstrations. -/
def emptyPlan : ExecutionPlan :=
  { feature := "F", description := "", scenarios := [], type := "web",
    tags := [], language := "en" }

/-- A cache entry created at time 0 with hash `abc`. -/
def staleCacheEntry : CacheData :=
  { contentHash := "abc", timestamp := 0, plan := emptyPlan }

/-- Counterexample to claim C7 as stated: at `now = maxCacheAge` the entry's
age is exactly 7 days — not *below* 7 days — and yet `getCachedPlan` returns
a hit (the code misses only when the age strictly exceeds the horizon), so a
cache hit does not require the age to be below 7 days. -/
theorem C7_counterexample :
    getCachedPlan (some staleCacheEntry) "abc" maxCacheAge = some emptyPlan ∧
    ¬ (maxCacheAge - staleCacheEntry.timestamp < maxCacheAge) := by
  constructor
  · rfl
  · decide

/-- Claim C7 (amended): a cache hit requires content-hash equality and an
entry age of at most 7 days: an entry strictly older than 7 days is a miss
even when its stored hash equals the current hash, a hash mismatch is a
miss regardless of age, and an absent or unreadable cache file is a miss. -/
theorem C7_cache_hit_iff (c : CacheData) (currentHash : String) (now : Int) :
    (getCachedPlan (some c) currentHash now = some c.plan ↔
      (c.contentHash = currentHash ∧ now - c.timestamp ≤ maxCacheAge)) ∧
    (now - c.timestamp > maxCacheAge →
      getCachedPlan (some c) currentHash now = none) ∧
    (c.contentHash ≠ currentHash →
      getCachedPlan (some c) currentHash now = none) ∧
    getCachedPlan none currentHash now = none := by
  unfold getCachedPlan
  by_cases hh : c.contentHash = currentHash <;>
    by_cases ha : now - c.timestamp > maxCacheAge <;>
    simp [hh, ha] <;> omega

/-- Witness for C7 (amended) at a concrete entry and time. -/
theorem C7_cache_hit_iff_witness :
    (getCachedPlan (some staleCacheEntry) "abc" 1000 = some staleCacheEntry.plan ↔
      (staleCacheEntry.contentHash = "abc" ∧
        (1000 : Int) - staleCacheEntry.timestamp ≤ maxCacheAge)) ∧
    ((1000 : Int) - staleCacheEntry.timestamp > maxCacheAge →
      getCachedPlan (some staleCacheEntry) "abc" 1000 = none) ∧
    (staleCacheEntry.contentHash ≠ "abc" →
      getCachedPlan (some staleCacheEntry) "abc" 1000 = none) ∧
    getCachedPlan none "abc" (1000 : Int) = none :=
  C7_cache_hit_iff staleCacheEntry "abc" 1000

/-! ### C9: non-empty oracle selectors are not sanitized -/

/-- An oracle response violating the prompt contract: one step carries the
non-empty selector `div#submit`. -/
def contractViolatingResponse : OracleResponse :=
  { testType := "web",
    scenarios := [
      { name := "S", context := "web",
        steps := [
          { gherkinStep := "When I click", action := "click",
            selector := some "div#submit", data := StepData.noData,
            description := "click the submit button",
            validation := none } ] } ] }

/-- Counterexample to claim C9 as stated: a reasoning-oracle response whose
step carries the non-empty selector `div#submit` flows through plan
construction and placeholder substitution unchanged — the compiled plan's
step still has selector `div#submit`, not the empty string.  The compiler
never inspects or clears the field. -/
theorem C9_counterexample :
    ((parseAndPlanModel (fun _ => "e@t.co") 0 none
        (planFromInterpretation "F" "" [] "en"
          contractViolatingResponse)).1.scenarios.map
      (fun sc => sc.steps.map (fun st => st.selector))) =
      [[some "div#submit"]] ∧
    (some "div#submit" : Option String) ≠ some "" := by
  constructor
  · rfl
  · decide

/-- Claim C9 (amended): the compiler performs no validation of the oracle's
`targetSelector` contract — `parseAndPlan` copies the interpretation's
scenarios (including every step's selector, empty or not) verbatim into the
compiled `ExecutionPlan`; the contract is enforced only by the prompt text
sent to the oracle. -/
theorem C9_selector_passthrough (featureName featureDesc : String)
    (tags : List String) (lang : String) (resp : OracleResponse) :
    (planFromInterpretation featureName featureDesc tags lang resp).scenarios
      = resp.scenarios ∧
    (planFromInterpretation featureName featureDesc tags lang resp).type
      = resp.testType ∧
    ((planFromInterpretation featureName featureDesc tags lang
        resp).scenarios.map (fun sc => sc.steps.map (fun st => st.selector)))
      = resp.scenarios.map (fun sc => sc.steps.map (fun st => st.selector)) :=
  ⟨rfl, rfl, rfl⟩

/-- Witness for C9 (amended) at the contract-violating response. -/
theorem C9_selector_passthrough_witness :
    (planFromInterpretation "F" "" [] "en"
        contractViolatingResponse).scenarios
      = contractViolatingResponse.scenarios ∧
    (planFromInterpretation "F" "" [] "en"
        contractViolatingResponse).type
      = contractViolatingResponse.testType ∧
    ((planFromInterpretation "F" "" [] "en"
        contractViolatingResponse).scenarios.map
      (fun sc => sc.steps.map (fun st => st.selector)))
      = contractViolatingResponse.scenarios.map
        (fun sc => sc.steps.map (fun st => st.selector)) :=
  C9_selector_passthrough "F" "" [] "en" contractViolatingResponse

/-! ### C5: heuristic fallback on oracle failure -/

/-- The property bundle for claim C5: a failing oracle call yields exactly
the deterministic `basicInterpretation` plan; that fallback is total (every
Lean function is), produces a `web`-typed plan with one compiled scenario
per source scenario (names preserved, steps built by the keyword heuristic
and quoted-payload extraction), the keyword mapping sends `Then` steps to
`validate` and `When ... click ...` steps to `click`, and quoted substrings
become the payload. -/
def C5Prop (f : GFeature) (err : String) : Prop :=
  interpretWithAI (Except.error err) f = basicInterpretation f ∧
  (basicInterpretation f).testType = "web" ∧
  (basicInterpretation f).scenarios.length = f.scenarios.length ∧
  (basicInterpretation f).scenarios ≠ [] ∧
  (∀ sc ∈ f.scenarios,
    ({ name := sc.name, context := "web",
       steps := sc.steps.map (fun st =>
         { gherkinStep := st.keyword ++ st.text,
           action := guessAction st.keyword st.text,
           selector := guessSelector st.text,
           data := extractData st.text,
           description := st.text,
           validation := none }) } : Scenario)
      ∈ (basicInterpretation f).scenarios) ∧
  (∀ t : String, guessAction "Then" t = "validate") ∧
  (∀ t : String, containsStr "click" t.toLower = true →
    guessAction "When" t = "click") ∧
  extractData "I click the \"Register\" button" = StepData.arr ["Register"]

/-- Claim C5: when the reasoning-oracle call fails or returns unparsable
output, plan compilation falls back to the deterministic keyword-matching
heuristic, and the fallback path never throws — compilation still returns a
plan with one scenario per source scenario. -/
theorem C5_heuristic_fallback (f : GFeature) (err : String)
    (hne : f.scenarios ≠ []) : C5Prop f err := by
  refine ⟨rfl, rfl, ?_, ?_, ?_, ?_, ?_, ?_⟩
  · simp [basicInterpretation]
  · simp [basicInterpretation, hne]
  · intro sc hsc
    simp only [basicInterpretation, List.mem_map]
    exact ⟨sc, hsc, rfl⟩
  · intro t
    rfl
  · intro t h
    unfold guessAction
    rw [if_neg (by decide), if_pos (by decide), if_pos]
    simp [h]
  · rfl

/-- A one-scenario demo feature. -/
def demoFeature : GFeature :=
  { name := "Login",
    scenarios := [
      { name := "Sign in",
        steps := [{ keyword := "When ", text := "I click \"Go\"" }],
        examples := [] } ] }

/-- Witness for C5 at a concrete feature and oracle error. -/
theorem C5_heuristic_fallback_witness :
    demoFeature.scenarios ≠ [] ∧ C5Prop demoFeature "ECONNREFUSED" :=
  ⟨by decide, C5_heuristic_fallback demoFeature "ECONNREFUSED" (by decide)⟩

/-! ### C3: scenario-outline expansion -/

/-- Is there a `<` with a later `>` somewhere in the list (a residual
angle-bracket token)? -/
def angleScan : List Char → Bool
  | [] => false
  | c :: cs => (c = '<' && cs.contains '>') || angleScan cs

/-- Residual `<...>` token detector for step texts. -/
def hasAngleToken (s : String) : Bool := angleScan s.data

/-- `l.isPrefixOf l` always holds. -/
theorem isPrefixOf_self (l : List Char) : l.isPrefixOf l = true := by
  induction l with
  | nil => rfl
  | cons c cs ih => simp [List.isPrefixOf, ih]

/-- In skip mode with at least the whole list left to skip, `rAux` consumes
everything. -/
theorem rAux_skip_all (pat rep : List Char) :
    ∀ (l : List Char) (k : Nat), l.length ≤ k → rAux pat rep k l = [] := by
  intro l
  induction l with
  | nil => intro k _; cases k <;> rfl
  | cons c cs ih =>
    intro k hk
    cases k with
    | zero => simp at hk
    | succ k2 => exact ih k2 (by simpa using hk)

/-- A pattern starting with a character absent from the text never matches:
the text is returned unchanged. -/
theorem rAux_no_head (p : Char) (ps rep : List Char) :
    ∀ l : List Char, p ∉ l → rAux (p :: ps) rep 0 l = l := by
  intro l
  induction l with
  | nil => intro _; rfl
  | cons c cs ih =>
    intro h
    have hc : (p == c) = false := by
      simp only [beq_eq_false_iff_ne, ne_eq]
      intro he
      exact h (he ▸ List.mem_cons_self c cs)
    have hpre : (p :: ps).isPrefixOf (c :: cs) = false := by
      simp [List.isPrefixOf, hc]
    rw [rAux, if_neg (by simp [hpre])]
    have := ih (fun hm => h (List.mem_cons_of_mem c hm))
    rw [this]

/-- `replaceAllStr` with a pattern whose first character does not occur in
the text is the identity. -/
theorem replaceAllStr_no_head (pat rep s : String) (p : Char) (ps : List Char)
    (hpat : pat.data = p :: ps) (h : p ∉ s.data) :
    replaceAllStr pat rep s = s := by
  unfold replaceAllStr
  rw [hpat]
  exact congrArg String.mk (rAux_no_head p ps rep.data s.data h)

/-- Replacing a pattern inside the pattern itself yields the replacement. -/
theorem replaceAllStr_self (pat rep : String) (p : Char) (ps : List Char)
    (hpat : pat.data = p :: ps) : replaceAllStr pat rep pat = rep := by
  unfold replaceAllStr
  rw [hpat]
  show String.mk (rAux (p :: ps) rep.data 0 (p :: ps)) = rep
  rw [rAux, if_pos (by simp [isPrefixOf_self])]
  have hskip : rAux (p :: ps) rep.data ((p :: ps).length - 1) ps = [] :=
    rAux_skip_all _ _ ps ((p :: ps).length - 1) (by simp)
  rw [hskip, List.append_nil]

/-- The character data of a `<param>` token. -/
theorem token_data (p : String) :
    ("<" ++ p ++ ">").data = '<' :: (p.data ++ ['>']) := by
  simp [String.data_append]

/-- The property bundle for claim C3 (amended): a scenario with one
examples table of `N` data rows expands to exactly `N` prompt scenarios;
the `i`-th (0-based) is renamed `"<name> (Example i+1)"` and its step texts
are the originals with every `<param>` for a header param substituted by
row `i`'s value, in header order; the substitution touches nothing but
`<...>` tokens and replaces a header token completely. -/
def C3Prop (sc : GScenario) (headers : List String)
    (rows : List (List String)) : Prop :=
  (expandScenario sc).length = rows.length ∧
  (∀ (i : Nat) (row : List String), rows[i]? = some row →
    (expandScenario sc)[i]? = some
      { name := sc.name ++ " (Example " ++ toString (i + 1) ++ ")",
        steps := sc.steps.map (fun st =>
          { keyword := jsTrim st.keyword,
            text := substParams (headers.zip row) st.text }) }) ∧
  (∀ p v t : String, '<' ∉ t.data → substParams [(p, v)] t = t) ∧
  (∀ p v : String, substParams [(p, v)] ("<" ++ p ++ ">") = v)

/-- Claim C3 (amended): compilation of a scenario carrying an examples
table with `N` data rows produces exactly `N` concrete scenarios, one per
row, named `"<scenario name> (Example i)"` with `i` the 1-based row index,
in which every `<param>` token for a param of the examples header is
replaced by that row's value; `<...>` tokens not named in the header are
left in place (no blanket "no residual tokens" guarantee holds). -/
theorem C3_outline_expansion (sc : GScenario) (headers : List String)
    (rows : List (List String))
    (hex : sc.examples = [{ tableHeader := some headers, tableBody := rows }]) :
    C3Prop sc headers rows := by
  have hexp : expandScenario sc =
      rows.enum.map (fun ir =>
        { name := sc.name ++ " (Example " ++ toString (ir.1 + 1) ++ ")",
          steps := sc.steps.map (fun st =>
            { keyword := jsTrim st.keyword,
              text := substParams (headers.zip ir.2) st.text }) }) := by
    simp [expandScenario, hex, expandTable]
  refine ⟨?_, ?_, ?_, ?_⟩
  · rw [hexp]; simp [List.enum_length]
  · intro i row hrow
    rw [hexp, List.getElem?_map, List.getElem?_enum, hrow]
    rfl
  · intro p v t h
    show replaceAllStr ("<" ++ p ++ ">") v t = t
    exact replaceAllStr_no_head _ v t '<' (p.data ++ ['>']) (token_data p) h
  · intro p v
    show replaceAllStr ("<" ++ p ++ ">") v ("<" ++ p ++ ">") = v
    exact replaceAllStr_self _ v '<' (p.data ++ ['>']) (token_data p)

/-- A scenario outline whose step mentions a parameter (`<b>`) that is not
a column of its examples table. -/
def cexOutlineScenario : GScenario :=
  { name := "S", steps := [{ keyword := "When ", text := "<a> and <b>" }],
    examples := [{ tableHeader := some ["a"], tableBody := [["1"]] }] }

/-- Counterexample to claim C3 as stated: expanding `cexOutlineScenario`
does produce one scenario per row with `<a>` substituted, but the step text
`"1 and <b>"` still contains the residual token `<b>` — the expansion does
not guarantee "no residual `<...>` tokens". -/
theorem C3_counterexample :
    expandScenario cexOutlineScenario =
      [{ name := "S (Example 1)",
         steps := [{ keyword := "When", text := "1 and <b>" }] }] ∧
    hasAngleToken "1 and <b>" = true := by
  constructor
  · rfl
  · decide

/-- A well-formed two-row outline for the C3 witness. -/
def demoOutline : GScenario :=
  { name := "Buy", steps := [{ keyword := "When ", text := "I buy <qty> items" }],
    examples := [{ tableHeader := some ["qty"], tableBody := [["1"], ["2"]] }] }

/-- Witness for C3 (amended) at a concrete two-row outline. -/
theorem C3_outline_expansion_witness :
    demoOutline.examples =
      [{ tableHeader := some ["qty"], tableBody := [["1"], ["2"]] }] ∧
    C3Prop demoOutline ["qty"] [["1"], ["2"]] :=
  ⟨rfl, C3_outline_expansion demoOutline ["qty"] [["1"], ["2"]] rfl⟩

/-! ### C2: placeholder substitution -/

/-- Syntactic validity of an email address: splitting at the first `@`
gives a non-empty local part and a non-empty domain that contains no
further `@` and has a dot. -/
def emailWellFormed (e : String) : Bool :=
  match splitAtFirst '@' e.data with
  | some (loc, dom) =>
    !loc.isEmpty && !dom.isEmpty && !dom.contains '@' && dom.contains '.'
  | none => false

/-- The character data of a generated address. -/
theorem generateRandomEmail_data (r t : String) (d : Fin 4) :
    (generateRandomEmail r t d).data =
      "user_".data ++ (r.data ++ '_' :: (t.data ++ '@' :: (domainOf d).data)) := by
  have h1 : "_".data = ['_'] := rfl
  have h2 : "@".data = ['@'] := rfl
  simp [generateRandomEmail, String.data_append, h1, h2]

/-- `splitAtFirst` on a list whose left part avoids the separator. -/
theorem splitAtFirst_append (c : Char) (A B : List Char) (hA : c ∉ A) :
    splitAtFirst c (A ++ c :: B) = some (A, B) := by
  induction A with
  | nil => simp [splitAtFirst]
  | cons a as ih =>
    have ha : a ≠ c := fun he => hA (he ▸ List.mem_cons_self a as)
    have ih2 := ih (fun hm => hA (List.mem_cons_of_mem a hm))
    simp [splitAtFirst, ha, ih2]

/-- Splitting a concatenation at a separator absent from both left parts
identifies the parts. -/
theorem sepSplit (c : Char) :
    ∀ (l1 l2 m1 m2 : List Char), c ∉ l1 → c ∉ l2 →
      l1 ++ c :: m1 = l2 ++ c :: m2 → l1 = l2 ∧ m1 = m2 := by
  intro l1
  induction l1 with
  | nil =>
    intro l2 m1 m2 _ h2 heq
    cases l2 with
    | nil => simpa using heq
    | cons b bs =>
      simp only [List.nil_append, List.cons_append, List.cons.injEq] at heq
      exact absurd (by rw [heq.1]; exact List.mem_cons_self b bs) h2
  | cons a as ih =>
    intro l2 m1 m2 h1 h2 heq
    cases l2 with
    | nil =>
      simp only [List.cons_append, List.nil_append, List.cons.injEq] at heq
      refine absurd ?_ h1
      rw [← heq.1]
      exact List.mem_cons_self a as
    | cons b bs =>
      simp only [List.cons_append, List.cons.injEq] at heq
      obtain ⟨hab, heq2⟩ := heq
      obtain ⟨hl, hm⟩ := ih bs m1 m2
        (fun hm2 => h1 (List.mem_cons_of_mem a hm2))
        (fun hm2 => h2 (List.mem_cons_of_mem b hm2)) heq2
      exact ⟨by rw [hab, hl], hm⟩

/-- Every generated address is syntactically valid, provided the random
string and the timestamp rendering contain no `@` (the random string is
base-36 and the timestamp is decimal, so they cannot). -/
theorem generateRandomEmail_valid (r t : String) (d : Fin 4)
    (hra : '@' ∉ r.data) (hta : '@' ∉ t.data) :
    emailWellFormed (generateRandomEmail r t d) = true := by
  unfold emailWellFormed
  rw [generateRandomEmail_data]
  have hshape :
      "user_".data ++ (r.data ++ '_' :: (t.data ++ '@' :: (domainOf d).data))
        = ("user_".data ++ r.data ++ '_' :: t.data)
            ++ '@' :: (domainOf d).data := by
    simp [List.append_assoc]
  have hA : '@' ∉ ("user_".data ++ r.data ++ '_' :: t.data) := by
    intro hm
    rcases List.mem_append.mp hm with hm1 | hm2
    · rcases List.mem_append.mp hm1 with hm3 | hm4
      · exact absurd hm3 (by decide)
      · exact hra hm4
    · rcases List.mem_cons.mp hm2 with hm3 | hm4
      · exact absurd hm3 (by decide)
      · exact hta hm4
  rw [hshape, splitAtFirst_append '@' _ _ hA]
  have hu : "user_".data = 'u' :: "ser_".data := rfl
  rw [hu]
  simp only [List.cons_append, List.isEmpty_cons, Bool.not_false,
    Bool.true_and]
  fin_cases d <;> decide

/-- The four cache domains are pairwise distinct. -/
theorem domainOf_inj : ∀ d d2 : Fin 4, domainOf d = domainOf d2 → d = d2 := by
  decide

/-- Generated addresses are unique per call: two generation inputs that
produce the same address agree in random string, timestamp and domain
(the separators `_` and `@` cannot occur in a base-36 random string or a
decimal timestamp). -/
theorem generateRandomEmail_inj (r t r2 t2 : String) (d d2 : Fin 4)
    (hr : '_' ∉ r.data) (hta : '@' ∉ t.data)
    (hr2 : '_' ∉ r2.data) (hta2 : '@' ∉ t2.data)
    (heq : generateRandomEmail r t d = generateRandomEmail r2 t2 d2) :
    r = r2 ∧ t = t2 ∧ d = d2 := by
  have hdata := congrArg String.data heq
  rw [generateRandomEmail_data, generateRandomEmail_data] at hdata
  have h1 := List.append_cancel_left hdata
  obtain ⟨hre, h2⟩ := sepSplit '_' r.data r2.data _ _ hr hr2 h1
  obtain ⟨hte, h3⟩ := sepSplit '@' t.data t2.data _ _ hta hta2 h2
  exact ⟨String.ext hre, String.ext hte, domainOf_inj d d2 (String.ext h3)⟩

/-- A value containing the literal `<email>` marker (the first pattern in
the list) is substituted with the freshly generated address, and the call
counter advances. -/
theorem replacePlaceholder_email (gen : Nat → String) (m : Nat) (v : String)
    (h : containsCIStr "<email>" v = true) :
    replacePlaceholder gen m v = (replaceAllCIStr "<email>" (gen m) v, m + 1) := by
  simp [replacePlaceholder, emailPatterns, List.find?, h]

/-- The property bundle for claim C2: substitution runs after plan creation
on both the cache-hit and the cache-miss path; the artifact persisted to
the cache is the pre-substitution plan (and nothing is written on a hit);
any payload value containing the `<email>` marker is rewritten with a
freshly generated address, advancing the per-call counter; the generated
address is syntactically valid; and generation is injective in its inputs,
so each call's address is unique. -/
def C2Prop (gen : Nat → String) (n : Nat) (cached : Option ExecutionPlan)
    (fresh : ExecutionPlan) (r t : String) (d : Fin 4) : Prop :=
  (∀ p, cached = some p →
    parseAndPlanModel gen n cached fresh =
      ((processDynamicPlaceholders gen n p).1, none)) ∧
  (cached = none →
    parseAndPlanModel gen n cached fresh =
      ((processDynamicPlaceholders gen n fresh).1, some fresh)) ∧
  (∀ (v : String) (m : Nat), containsCIStr "<email>" v = true →
    replacePlaceholder gen m v =
      (replaceAllCIStr "<email>" (gen m) v, m + 1)) ∧
  emailWellFormed (generateRandomEmail r t d) = true ∧
  (∀ (r2 t2 : String) (d2 : Fin 4),
    '_' ∉ r2.data → '@' ∉ r2.data → '@' ∉ t2.data →
    generateRandomEmail r t d = generateRandomEmail r2 t2 d2 →
    r = r2 ∧ t = t2 ∧ d = d2)

/-- Claim C2: on every compile — cache hit or miss — placeholder
substitution runs after plan creation; payload values carrying the
`<email>` marker are replaced with a fresh, syntactically valid,
unique-per-call generated address; and the plan persisted to the cache is
the pre-substitution template. -/
theorem C2_placeholder_substitution (gen : Nat → String) (n : Nat)
    (cached : Option ExecutionPlan) (fresh : ExecutionPlan)
    (r t : String) (d : Fin 4)
    (hr : '_' ∉ r.data) (hra : '@' ∉ r.data) (hta : '@' ∉ t.data) :
    C2Prop gen n cached fresh r t d := by
  refine ⟨?_, ?_, ?_, ?_, ?_⟩
  · intro p hp; rw [hp]; rfl
  · intro hp; rw [hp]; rfl
  · exact fun v m h => replacePlaceholder_email gen m v h
  · exact generateRandomEmail_valid r t d hra hta
  · intro r2 t2 d2 hr2 _ hta2 heq
    exact generateRandomEmail_inj r t r2 t2 d d2 hr hta hr2 hta2 heq

/-- Witness for C2 at concrete random/clock inputs and a concrete plan. -/
theorem C2_placeholder_substitution_witness :
    ('_' ∉ "k3j9x2".data) ∧ ('@' ∉ "k3j9x2".data) ∧ ('@' ∉ "1700".data) ∧
    C2Prop (fun _ => "x@t.co") 0 none emptyPlan "k3j9x2" "1700" 0 :=
  ⟨by decide, by decide, by decide,
   C2_placeholder_substitution (fun _ => "x@t.co") 0 none emptyPlan
     "k3j9x2" "1700" 0 (by decide) (by decide) (by decide)⟩

/-! ### C4: vision-response parsing performs no retry -/

/-- The property bundle for claim C4 (amended): every resolution attempt
performs exactly one oracle call; it succeeds exactly when that single
call's content, after markdown unwrapping, parses; and a markdown-fenced
JSON body is unwrapped to its fenced payload before parsing. -/
def C4Prop (oracle : Nat → Except String String)
    (parse : String → Option VisionResult) : Prop :=
  (visionResolve oracle parse).2 = 1 ∧
  (∀ v : VisionResult,
    (visionResolve oracle parse).1 = Except.ok v ↔
      ∃ c, oracle 0 = Except.ok c ∧ parse (extractJsonStr c) = some v) ∧
  extractJsonStr "```json\n\x7b\"found\": true\x7d\n```"
    = "\x7b\"found\": true\x7d"

/-- Claim C4 (amended): the resolver unwraps markdown-fenced JSON before
parsing, and when parsing the unwrapped content fails it raises
immediately — the oracle is called exactly once per resolution attempt,
with no retry. -/
theorem C4_unwrap_no_retry (oracle : Nat → Except String String)
    (parse : String → Option VisionResult) : C4Prop oracle parse := by
  refine ⟨?_, ?_, by rfl⟩
  · unfold visionResolve
    cases ho : oracle 0 with
    | error e => rfl
    | ok c => cases hp : parse (extractJsonStr c) <;> simp [hp]
  · intro v
    unfold visionResolve
    cases ho : oracle 0 with
    | error e => simp
    | ok c =>
      cases hp : parse (extractJsonStr c) with
      | none => simp [hp]
      | some v0 => simp [hp, eq_comm]

/-- A concrete oracle whose first response is unparsable prose and whose
second would parse. -/
def retryDemoOracle : Nat → Except String String :=
  fun k =>
    if k = 0 then Except.ok "the register button is on the right"
    else Except.ok "\x7b\"found\":true\x7d"

/-- A concrete parse accepting exactly the well-formed body. -/
def retryDemoParse : String → Option VisionResult :=
  fun s =>
    if s = "\x7b\"found\":true\x7d" then some { found := true } else none

/-- Counterexample to claim C4 as stated: with an unparsable first
response, the resolver raises `Vision AI returned invalid JSON` after
exactly one oracle call — even though the next call would have returned
content that parses — so the call is not retried once before raising. -/
theorem C4_counterexample :
    visionResolve retryDemoOracle retryDemoParse =
      (Except.error "Vision AI returned invalid JSON", 1) ∧
    retryDemoOracle 1 = Except.ok "\x7b\"found\":true\x7d" ∧
    retryDemoParse (extractJsonStr "\x7b\"found\":true\x7d") =
      some { found := true } := by
  refine ⟨?_, rfl, ?_⟩
  · rfl
  · rfl

/-- Witness for C4 (amended) at the concrete oracle and parse. -/
theorem C4_unwrap_no_retry_witness : C4Prop retryDemoOracle retryDemoParse :=
  C4_unwrap_no_retry retryDemoOracle retryDemoParse

/-! ### C6: validate retries the DOM before consulting vision -/

/-- Specification of `retryLoop`: the loop reports failure exactly when
every attempt in its window fails, and in that case it performs all
`fuel` attempts, waiting 1000 ms after each. -/
theorem retryLoop_spec (s1 s2 : Nat → Bool) :
    ∀ (fuel k : Nat),
      ((retryLoop s1 s2 k fuel).1 = false ↔
        ∀ j, k ≤ j → j < k + fuel → (s1 j || s2 j) = false) ∧
      ((retryLoop s1 s2 k fuel).1 = false →
        (retryLoop s1 s2 k fuel).2.1 = k + fuel ∧
        (retryLoop s1 s2 k fuel).2.2 = List.replicate fuel 1000) := by
  intro fuel
  induction fuel with
  | zero =>
    intro k
    refine ⟨?_, fun _ => ⟨rfl, rfl⟩⟩
    simp only [retryLoop, true_iff]
    intro j h1 h2
    omega
  | succ f ih =>
    intro k
    cases h : (s1 k || s2 k) with
    | true =>
      have hred : retryLoop s1 s2 k (f + 1) = (true, k, []) := by
        simp [retryLoop, h]
      rw [hred]
      constructor
      · constructor
        · intro hc; exact absurd hc (by simp)
        · intro hall
          have h2 := hall k le_rfl (by omega)
          exact Bool.noConfusion (h2 ▸ h)
      · intro hc; exact absurd hc (by simp)
    | false =>
      have hred : retryLoop s1 s2 k (f + 1) =
          ((retryLoop s1 s2 (k + 1) f).1, (retryLoop s1 s2 (k + 1) f).2.1,
            1000 :: (retryLoop s1 s2 (k + 1) f).2.2) := by
        simp [retryLoop, h]
      obtain ⟨ih1, ih2⟩ := ih (k + 1)
      rw [hred]
      constructor
      · show (retryLoop s1 s2 (k + 1) f).1 = false ↔ _
        rw [ih1]
        constructor
        · intro hall j hj1 hj2
          rcases Nat.eq_or_lt_of_le hj1 with he | hl
          · exact he ▸ h
          · exact hall j hl (by omega)
        · intro hall j hj1 hj2
          exact hall j (by omega) (by omega)
      · intro hfalse
        obtain ⟨ha, hw⟩ := ih2 hfalse
        refine ⟨?_, ?_⟩
        · show (retryLoop s1 s2 (k + 1) f).2.1 = k + (f + 1)
          rw [ha]; omega
        · show 1000 :: (retryLoop s1 s2 (k + 1) f).2.2
              = List.replicate (f + 1) 1000
          rw [hw, List.replicate_succ]

/-- The property bundle for claim C6: when the Vision oracle is consulted,
every one of the 5 DOM attempts (under both selector strategies) failed and
the loop performed its complete budget of 5 attempts with a 1-second wait
after each; vision is consulted only with vision mode on; a DOM success
within the 5 attempts prevents any vision consultation; and when neither
path finds the text, the step fails with an error naming the missing
expectation. -/
def C6Prop (searchText : String) (s1 s2 : Nat → Bool)
    (useVision visionFound : Bool) : Prop :=
  ((validateExists searchText s1 s2 useVision visionFound).visionConsulted
      = true →
    (∀ k, k < 5 → s1 k = false ∧ s2 k = false) ∧
    (validateExists searchText s1 s2 useVision visionFound).attempts = 5 ∧
    (validateExists searchText s1 s2 useVision visionFound).waitsMs
      = [1000, 1000, 1000, 1000, 1000] ∧
    useVision = true) ∧
  ((∃ k, k < 5 ∧ (s1 k || s2 k) = true) →
    (validateExists searchText s1 s2 useVision visionFound).visionConsulted
      = false) ∧
  ((validateExists searchText s1 s2 useVision visionFound).found = false →
    (validateExists searchText s1 s2 useVision visionFound).error
      = some ("Expected text \"" ++ searchText ++ "\" not found on page") ∧
    (∀ k, k < 5 → s1 k = false ∧ s2 k = false) ∧
    (useVision = true → visionFound = false))

/-- Claim C6: a validate step with an `exists` expectation first performs
DOM text-presence checks under two selector strategies with up to 5 timed
retries spaced 1 second apart, consults the Vision oracle only if all 5
retries fail, and when neither path finds the text the step fails naming
the missing expectation. -/
theorem C6_validate_dom_then_vision (searchText : String)
    (s1 s2 : Nat → Bool) (useVision visionFound : Bool) :
    C6Prop searchText s1 s2 useVision visionFound := by
  obtain ⟨hiff, hall⟩ := retryLoop_spec s1 s2 5 0
  refine ⟨?_, ?_, ?_⟩
  · intro hc
    have hdom : (retryLoop s1 s2 0 5).1 = false ∧ useVision = true := by
      have : (!(retryLoop s1 s2 0 5).1 && useVision) = true := hc
      constructor
      · cases hdf : (retryLoop s1 s2 0 5).1
        · rfl
        · rw [hdf] at this; exact absurd this (by simp)
      · cases hu : useVision
        · rw [hu] at this; exact absurd this (by simp)
        · rfl
    have hfail := hiff.mp hdom.1
    obtain ⟨ha, hw⟩ := hall hdom.1
    refine ⟨?_, ?_, ?_, hdom.2⟩
    · intro k hk
      have := hfail k (by omega) (by omega)
      constructor
      · cases hs : s1 k
        · rfl
        · rw [hs] at this; exact absurd this (by simp)
      · cases hs : s2 k
        · rfl
        · rw [hs] at this; exact absurd this (by simp)
    · exact ha
    · rw [show (validateExists searchText s1 s2 useVision
          visionFound).waitsMs = (retryLoop s1 s2 0 5).2.2 from rfl, hw]
      rfl
  · intro ⟨k, hk, hsk⟩
    show (!(retryLoop s1 s2 0 5).1 && useVision) = false
    cases hdf : (retryLoop s1 s2 0 5).1
    · have := hiff.mp hdf k (by omega) (by omega)
      exact absurd hsk (by simp [this])
    · rfl
  · intro hnf
    have hstruct : ((retryLoop s1 s2 0 5).1 ||
        ((!(retryLoop s1 s2 0 5).1 && useVision) && visionFound)) = false :=
      hnf
    have hdf : (retryLoop s1 s2 0 5).1 = false := by
      cases hd : (retryLoop s1 s2 0 5).1
      · rfl
      · rw [hd] at hstruct; exact absurd hstruct (by simp)
    have hfail := hiff.mp hdf
    refine ⟨?_, ?_, ?_⟩
    · show (if (validateExists searchText s1 s2 useVision visionFound).found
          = true then _ else _) = _
      rw [if_neg (by rw [hnf]; exact Bool.false_ne_true)]
    · intro k hk
      have := hfail k (by omega) (by omega)
      constructor
      · cases hs : s1 k
        · rfl
        · rw [hs] at this; exact absurd this (by simp)
      · cases hs : s2 k
        · rfl
        · rw [hs] at this; exact absurd this (by simp)
    · intro hu
      rw [hdf, hu] at hstruct
      cases hv : visionFound
      · rfl
      · rw [hv] at hstruct; exact absurd hstruct (by simp)

/-- Witness for C6 at concrete strategy outcomes (all DOM checks fail,
vision enabled and also failing). -/
theorem C6_validate_dom_then_vision_witness :
    C6Prop "Dashboard" (fun _ => false) (fun _ => false) true false :=
  C6_validate_dom_then_vision "Dashboard" (fun _ => false) (fun _ => false)
    true false

/-! ### C8: confidence and reasoning never gate control flow -/

/-- Claim C8: two Vision-oracle responses to the same action that differ
only in `confidence` and/or `reasoning` drive the click executor through
the same locate/act decisions — the full outcome (including the selector
finally used or the error raised) and the resulting step success are
identical on every page environment. -/
theorem C8_confidence_noninterference (env : PageEnv) (v1 v2 : VisionResult)
    (_hstrategy : v1.strategy = v2.strategy)
    (hsel : v1.selector = v2.selector)
    (_hdrop : v1.dropdownSelector = v2.dropdownSelector)
    (_htext : v1.actualText = v2.actualText)
    (_hfields : v1.fields = v2.fields)
    (_hfound : v1.found = v2.found) :
    clickWithVision env v1 = clickWithVision env v2 ∧
    clickStepSuccess env v1 = clickStepSuccess env v2 := by
  have h : clickWithVision env v1 = clickWithVision env v2 := by
    unfold clickWithVision
    rw [hsel]
  exact ⟨h, by unfold clickStepSuccess; rw [h]⟩

/-- A resolution the oracle reported with high confidence. -/
def visHigh : VisionResult :=
  { selector := "button:has-text(\x27Go\x27)", confidence := "high",
    reasoning := "the Go button is clearly visible" }

/-- The same resolution with low confidence and different reasoning. -/
def visLow : VisionResult :=
  { selector := "button:has-text(\x27Go\x27)", confidence := "low",
    reasoning := "several candidate buttons" }

/-- A demo page on which only the generic visible-button fallback works. -/
def demoPage : PageEnv :=
  { attachable := fun _ => false, anyMatches := fun s => s = "button:visible",
    visible := fun s => s = "button:visible",
    clickOk := fun s => s = "button:visible", jsClickOk := fun _ => false }

/-- Witness for C8: on a concrete page, the high- and low-confidence
variants of the same resolution produce identical click outcomes. -/
theorem C8_confidence_noninterference_witness :
    visHigh.strategy = visLow.strategy ∧
    visHigh.selector = visLow.selector ∧
    visHigh.dropdownSelector = visLow.dropdownSelector ∧
    visHigh.actualText = visLow.actualText ∧
    visHigh.fields = visLow.fields ∧
    visHigh.found = visLow.found ∧
    (clickWithVision demoPage visHigh = clickWithVision demoPage visLow ∧
      clickStepSuccess demoPage visHigh = clickStepSuccess demoPage visLow) :=
  ⟨rfl, rfl, rfl, rfl, rfl, rfl,
   C8_confidence_noninterference demoPage visHigh visLow
     rfl rfl rfl rfl rfl rfl⟩

end QAAgents
